import Mathlib

/-!
Verification of the stateful browsing engine of a terminal log browser
(rust-aws-tui): the keyword filter, the selection cursor, the viewport
windowing algorithm, the date-range editor and the cached-list data source,
shallowly embedded from the Rust sources under src/.

Rust strings are embedded as lists of characters, usize as Nat (with
saturating subtraction being Nat subtraction), and chrono DateTime values
as calendar records ordered lexicographically on their fields.
-/

/-- Embedding of a Rust String: a list of characters. -/
abbrev Str := List Char

/-- Embedding of Rust `str::to_lowercase` (character-wise case folding). -/
def lowerStr (s : Str) : Str := s.map Char.toLower

/-- Embedding of Rust `str::split_whitespace`: maximal runs of
non-whitespace characters, in order; whitespace is discarded and no empty
token is produced. -/
def splitWs : Str → List Str
  | [] => []
  | c :: cs =>
    if c.isWhitespace then splitWs cs
    else
      match cs with
      | [] => [[c]]
      | c2 :: _ =>
        if c2.isWhitespace then
          [c] :: splitWs cs
        else
          match splitWs cs with
          | [] => [[c]]
          | t :: ts => (c :: t) :: ts

/-- Embedding of Rust `str::starts_with` on character lists. -/
def strStartsWith : Str → Str → Bool
  | [], _ => true
  | _ :: _, [] => false
  | a :: as_, b :: bs => a == b && strStartsWith as_ bs

/-- Embedding of Rust `str::contains` (substring test):
`strContains hay needle` holds when `needle` occurs contiguously in `hay`. -/
def strContains (hay needle : Str) : Bool :=
  match hay with
  | [] => needle.isEmpty
  | _ :: rest => strStartsWith needle hay || strContains rest needle

/-- Embedding of the AWS SDK type `OutputLogEvent` as used by the log
viewer: timestamp, optional message and ingestion time. -/
structure OutputLogEvent where
  timestamp : Int
  message : Option Str
  ingestionTime : Int
deriving DecidableEq, Repr

/-- The filtered-list computation of `LogViewer::update_filter`
(src/app_state/log_viewer.rs lines 101-124): on an empty filter the whole
backing list is kept; otherwise the filter text is lower-cased, split on
whitespace into keywords, and a log is kept when its message is present and
its lower-cased message contains every keyword (a log with no message is
dropped). -/
def updateFilterLV (logs : List OutputLogEvent) (filterInput : Str) :
    List OutputLogEvent :=
  if filterInput = [] then logs
  else
    let keywords := splitWs (lowerStr filterInput)
    logs.filter (fun log =>
      match log.message with
      | some message => keywords.all (fun kw => strContains (lowerStr message) kw)
      | none => false)

/-- The filtered-list computation of `FunctionSelection::update_filter`
(src/app_state/function_selection.rs lines 115-134): same keyword policy
over plain function-name strings. -/
def updateFilterFS (functions : List Str) (filterInput : Str) : List Str :=
  if filterInput = [] then functions
  else
    let keywords := splitWs (lowerStr filterInput)
    functions.filter (fun name =>
      keywords.all (fun kw => strContains (lowerStr name) kw))

/-- Spec-side KeywordFilter contract (spec section 4.1), stated from the
words of the spec: split the query on whitespace into tokens (empty query
means always true), case-fold both sides, and accept when every token is a
substring of the candidate. -/
def keywordFilterMatches (query candidate : Str) : Bool :=
  (splitWs (lowerStr query)).all (fun kw => strContains (lowerStr candidate) kw)

/-- Normalisation applied by `LogViewer::load_logs` to every fetched event
(log_viewer.rs lines 81-87): a missing message becomes the empty string, so
every stored event has a present message. -/
def normalizeEvent (e : OutputLogEvent) : OutputLogEvent :=
  { timestamp := e.timestamp
    message := some (e.message.getD [])
    ingestionTime := e.ingestionTime }

theorem normalizeEvent_message_isSome (e : OutputLogEvent) :
    (normalizeEvent e).message.isSome := rfl

theorem splitWs_nil : splitWs [] = [] := rfl

/-- A query of nothing but whitespace splits into no keywords. -/
theorem splitWs_all_whitespace (q : Str) (h : ∀ c ∈ q, c.isWhitespace) :
    splitWs q = [] := by
  induction q with
  | nil => rfl
  | cons c cs ih =>
    have hc : c.isWhitespace := h c (List.mem_cons_self c cs)
    have hrest : ∀ x ∈ cs, x.isWhitespace := fun x hx => h x (List.mem_cons_of_mem c hx)
    simp [splitWs, hc, ih hrest]

/-- Lower-casing does not change whether a character is whitespace: the
whitespace characters are fixed points of case folding. -/
theorem isWhitespace_toLower (c : Char) (h : c.isWhitespace) :
    c.toLower.isWhitespace := by
  have h2 : c = ' ' ∨ c = '\t' ∨ c = '\r' ∨ c = '\n' := by
    simpa [Char.isWhitespace, Bool.or_eq_true, decide_eq_true_eq, or_assoc] using h
  rcases h2 with rfl | rfl | rfl | rfl <;> decide

theorem lowerStr_all_whitespace (q : Str) (h : ∀ c ∈ q, c.isWhitespace) :
    ∀ c ∈ lowerStr q, c.isWhitespace := by
  intro c hc
  simp only [lowerStr, List.mem_map] at hc
  obtain ⟨a, ha, rfl⟩ := hc
  exact isWhitespace_toLower a (h a ha)

/-! ## LogViewer state and operations (src/app_state/log_viewer.rs) -/

/-- Embedding of the `LogViewer` state fields the core operations touch.
The shared `Arc<Mutex<Vec<OutputLogEvent>>>` is embedded as the list it
guards; the AWS client handle is an external collaborator and is omitted. -/
structure LogViewerState where
  logs : List OutputLogEvent
  filteredLogs : List OutputLogEvent
  filterInput : Str
  scrollOffset : Nat
  selectedLog : Option Nat
  expanded : Bool
deriving DecidableEq, Repr

/-- Embedding of `LogViewer::update_filter` (log_viewer.rs lines 101-133):
recompute the filtered list, reset the selection to `Some 0` when the
filtered list is non-empty and to `None` when it is empty, and leave
expanded mode. -/
def LogViewerState.update_filter (s : LogViewerState) : LogViewerState :=
  let filtered := updateFilterLV s.logs s.filterInput
  { s with
    filteredLogs := filtered
    selectedLog := if filtered.isEmpty then none else some 0
    expanded := false }

/-- Embedding of `LogViewer::get_visible_range` (log_viewer.rs lines
204-226). Rust `saturating_sub` is Nat subtraction. -/
def LogViewerState.get_visible_range (s : LogViewerState)
    (visibleHeight : Nat) : Nat × Nat :=
  let totalLogs := s.filteredLogs.length
  let halfHeight := visibleHeight / 2
  match s.selectedLog with
  | some selected =>
    let idealStart := selected - halfHeight
    let start := if selected + halfHeight ≥ totalLogs then
        totalLogs - visibleHeight
      else
        idealStart
    (start, min (start + visibleHeight) totalLogs)
  | none => (0, min visibleHeight totalLogs)

/-! ## FunctionSelection and ProfileSelection states
(src/app_state/function_selection.rs, src/app_state/profile_selection.rs) -/

/-- Embedding of a `Profile` (toml_parser.rs): the fields the selection
logic reads. -/
structure Profile where
  name : Str
  region : Str
deriving DecidableEq, Repr

/-- Embedding of the `FunctionSelection` state fields the core operations
touch; `list_state` is the ratatui `ListState` selection, an optional
index. -/
structure FunctionSelectionState where
  profile : Profile
  lambdaFunctions : List Str
  filteredFunctions : List Str
  selectedIndex : Nat
  filterInput : Str
  listState : Option Nat
deriving DecidableEq, Repr

/-- Embedding of `FunctionSelection::update_filter` (function_selection.rs
lines 115-139): recompute the filtered list, then unconditionally set
`selected_index = 0` and `list_state.select(Some(0))`, whether or not the
filtered list is empty. -/
def FunctionSelectionState.update_filter (s : FunctionSelectionState) :
    FunctionSelectionState :=
  { s with
    filteredFunctions := updateFilterFS s.lambdaFunctions s.filterInput
    selectedIndex := 0
    listState := some 0 }

/-- Embedding of `FunctionSelection::next` (function_selection.rs lines
141-146): on a non-empty filtered list, move to
`min(selected_index + 1, len - 1)`; otherwise do nothing. -/
def FunctionSelectionState.next (s : FunctionSelectionState) :
    FunctionSelectionState :=
  if s.filteredFunctions.isEmpty then s
  else
    let idx := min (s.selectedIndex + 1) (s.filteredFunctions.length - 1)
    { s with selectedIndex := idx, listState := some idx }

/-- Embedding of `FunctionSelection::previous` (function_selection.rs lines
148-153): on a non-empty filtered list, move to
`selected_index.saturating_sub(1)`; otherwise do nothing. -/
def FunctionSelectionState.previous (s : FunctionSelectionState) :
    FunctionSelectionState :=
  if s.filteredFunctions.isEmpty then s
  else
    let idx := s.selectedIndex - 1
    { s with selectedIndex := idx, listState := some idx }

/-- Embedding of the `ProfileSelection` state (profile_selection.rs lines
4-8). -/
structure ProfileSelectionState where
  listState : Option Nat
  profiles : List Profile
deriving DecidableEq, Repr

/-- Embedding of `ProfileSelection::next` (profile_selection.rs lines
23-29): on a non-empty profile list, read the current selection (defaulting
to 0) and select `min(current + 1, len - 1)`. -/
def ProfileSelectionState.next (s : ProfileSelectionState) :
    ProfileSelectionState :=
  if s.profiles.isEmpty then s
  else
    let current := s.listState.getD 0
    { s with listState := some (min (current + 1) (s.profiles.length - 1)) }

/-- Embedding of `ProfileSelection::previous` (profile_selection.rs lines
31-37): on a non-empty profile list, select `current.saturating_sub(1)`. -/
def ProfileSelectionState.previous (s : ProfileSelectionState) :
    ProfileSelectionState :=
  if s.profiles.isEmpty then s
  else
    let current := s.listState.getD 0
    { s with listState := some (current - 1) }

/-! ## Calendar date-times (embedding of chrono DateTime values)
(src/app_state/date_selection.rs) -/

/-- Embedding of a chrono `DateTime<Local>` as a naive calendar record.
Local-timezone concerns (DST transitions) are outside this embedding; a
value is chronologically ordered by lexicographic comparison of its fields,
which agrees with instant ordering on valid calendar records. -/
structure CalDateTime where
  year : Int
  month : Nat
  day : Nat
  hour : Nat
  minute : Nat
  second : Nat
deriving DecidableEq, Repr

/-- Gregorian leap-year rule. -/
def isLeap (y : Int) : Bool := y % 4 == 0 && (y % 100 != 0 || y % 400 == 0)

/-- Number of days in a month of a given year. -/
def daysInMonth (y : Int) (m : Nat) : Nat :=
  if m = 2 then (if isLeap y then 29 else 28)
  else if m = 4 ∨ m = 6 ∨ m = 9 ∨ m = 11 then 30
  else 31

/-- A calendar record denoting an actual date-time (chrono values are valid
by construction). -/
def CalDateTime.Valid (d : CalDateTime) : Prop :=
  1 ≤ d.month ∧ d.month ≤ 12 ∧ 1 ≤ d.day ∧ d.day ≤ daysInMonth d.year d.month ∧
    d.hour < 24 ∧ d.minute < 60 ∧ d.second < 60

instance (d : CalDateTime) : Decidable d.Valid := by
  unfold CalDateTime.Valid; infer_instance

/-- Strict chronological order, embedding the derived `Ord`/`PartialOrd`
comparison of chrono date-times (lexicographic on the calendar fields). -/
def CalDateTime.ltb (a b : CalDateTime) : Bool :=
  decide (a.year < b.year ∨ (a.year = b.year ∧
    (a.month < b.month ∨ (a.month = b.month ∧
      (a.day < b.day ∨ (a.day = b.day ∧
        (a.hour < b.hour ∨ (a.hour = b.hour ∧
          (a.minute < b.minute ∨ (a.minute = b.minute ∧
            a.second < b.second))))))))))

/-- Non-strict chronological order: `a ≤ b` means not `b < a`. -/
def CalDateTime.leb (a b : CalDateTime) : Bool := !(CalDateTime.ltb b a)

theorem CalDateTime.ltb_irrefl (d : CalDateTime) : CalDateTime.ltb d d = false := by
  simp [CalDateTime.ltb]

/-- Embedding of chrono `with_year` (fails when the day does not exist in
the same month of the target year, e.g. Feb 29 in a non-leap year). -/
def withYear (d : CalDateTime) (y : Int) : Option CalDateTime :=
  if d.day ≤ daysInMonth y d.month then some { d with year := y } else none

/-- Embedding of chrono `with_month` (fails on a month outside 1..12 or
when the day does not exist in the target month). -/
def withMonth (d : CalDateTime) (m : Nat) : Option CalDateTime :=
  if 1 ≤ m ∧ m ≤ 12 ∧ d.day ≤ daysInMonth d.year m then
    some { d with month := m }
  else none

/-- One day later, with month and year rollover. -/
def succDay (d : CalDateTime) : CalDateTime :=
  if d.day < daysInMonth d.year d.month then { d with day := d.day + 1 }
  else if d.month < 12 then { d with month := d.month + 1, day := 1 }
  else { d with year := d.year + 1, month := 1, day := 1 }

/-- One day earlier, with month and year rollover. -/
def predDay (d : CalDateTime) : CalDateTime :=
  if 1 < d.day then { d with day := d.day - 1 }
  else if 1 < d.month then
    { d with month := d.month - 1, day := daysInMonth d.year (d.month - 1) }
  else { d with year := d.year - 1, month := 12, day := 31 }

/-- One hour later (embedding `date + Duration::hours(1)` on a valid
date-time). -/
def addOneHour (d : CalDateTime) : CalDateTime :=
  if d.hour < 23 then { d with hour := d.hour + 1 }
  else succDay { d with hour := 0 }

/-- One hour earlier (embedding `date + Duration::hours(-1)`). -/
def subOneHour (d : CalDateTime) : CalDateTime :=
  if 0 < d.hour then { d with hour := d.hour - 1 }
  else predDay { d with hour := 23 }

/-- One minute later (embedding `date + Duration::minutes(1)`). -/
def addOneMinute (d : CalDateTime) : CalDateTime :=
  if d.minute < 59 then { d with minute := d.minute + 1 }
  else addOneHour { d with minute := 0 }

/-- One minute earlier (embedding `date + Duration::minutes(-1)`). -/
def subOneMinute (d : CalDateTime) : CalDateTime :=
  if 0 < d.minute then { d with minute := d.minute - 1 }
  else subOneHour { d with minute := 59 }

/-- `n` hours earlier (embedding `now - Duration`, the quick-range anchor
computation; every preset duration is a whole number of hours). -/
def subHours (d : CalDateTime) : Nat → CalDateTime
  | 0 => d
  | n + 1 => subHours (subOneHour d) n

/-! ## DateSelection state machine (src/app_state/date_selection.rs) -/

/-- Embedding of the `DateField` enumeration (date_selection.rs lines
3-10). -/
inductive DateField where
  | Year
  | Month
  | Day
  | Hour
  | Minute
deriving DecidableEq, Repr

/-- Embedding of the `QuickRange` enumeration (date_selection.rs lines
12-22). -/
inductive QuickRange where
  | LastHour
  | Last2Hours
  | Last3Hours
  | Last6Hours
  | Last12Hours
  | Last24Hours
  | Last3Days
  | LastWeek
deriving DecidableEq, Repr

/-- Embedding of `QuickRange::all` (date_selection.rs lines 25-36). -/
def QuickRange.all : List QuickRange :=
  [QuickRange.LastHour, QuickRange.Last2Hours, QuickRange.Last3Hours,
   QuickRange.Last6Hours, QuickRange.Last12Hours, QuickRange.Last24Hours,
   QuickRange.Last3Days, QuickRange.LastWeek]

/-- Embedding of `QuickRange::to_duration` (date_selection.rs lines 38-49),
expressed in whole hours (`Duration::days(n)` is `24 * n` hours). -/
def QuickRange.durationHours : QuickRange → Nat
  | QuickRange.LastHour => 1
  | QuickRange.Last2Hours => 2
  | QuickRange.Last3Hours => 3
  | QuickRange.Last6Hours => 6
  | QuickRange.Last12Hours => 12
  | QuickRange.Last24Hours => 24
  | QuickRange.Last3Days => 72
  | QuickRange.LastWeek => 168

/-- Embedding of the `DateSelection` state (date_selection.rs lines
65-74). -/
structure DateSelectionState where
  from_date : CalDateTime
  to_date : CalDateTime
  is_selecting_from : Bool
  current_field : DateField
  quick_ranges : List QuickRange
  selected_quick_range : Option Nat
  custom_selection : Bool
deriving DecidableEq, Repr

/-- Embedding of `DateSelection::apply_quick_range` (date_selection.rs
lines 124-129). The clock is passed explicitly: `now` embeds the
`Local::now()` call made at the moment `apply_quick_range` runs. -/
def DateSelectionState.apply_quick_range (s : DateSelectionState)
    (now : CalDateTime) (index : Nat) : DateSelectionState :=
  match s.quick_ranges.get? index with
  | some range =>
    { s with to_date := now, from_date := subHours now range.durationHours }
  | none => s

/-- Embedding of `DateSelection::toggle_custom` (date_selection.rs lines
96-102): flip the mode flag; when the new mode is quick, reset the selected
quick range to index 0 and apply it relative to `now`. -/
def DateSelectionState.toggle_custom (s : DateSelectionState)
    (now : CalDateTime) : DateSelectionState :=
  let s1 := { s with custom_selection := !s.custom_selection }
  if !s1.custom_selection then
    let s2 := { s1 with selected_quick_range := some 0 }
    s2.apply_quick_range now 0
  else s1

/-- The field-update step of `DateSelection::adjust_current_field`
(date_selection.rs lines 158-182), applied to the bound being edited.
`rem_euclid` is `Int.emod`; the failed `with_year`/`with_month` fallback
`unwrap_or(*date)` keeps the original value. -/
def adjustDateField (field : DateField) (increment : Bool)
    (d : CalDateTime) : CalDateTime :=
  match field with
  | DateField.Year =>
    let years : Int := if increment then 1 else -1
    (withYear d (d.year + years)).getD d
  | DateField.Month =>
    let months : Int := if increment then 1 else -1
    let newMonth := ((d.month : Int) + months).emod 12
    (withMonth d (if newMonth = 0 then 12 else newMonth.toNat)).getD d
  | DateField.Day => if increment then succDay d else predDay d
  | DateField.Hour => if increment then addOneHour d else subOneHour d
  | DateField.Minute => if increment then addOneMinute d else subOneMinute d

/-- Embedding of `DateSelection::adjust_current_field` (date_selection.rs
lines 151-190): mutate the bound selected by `is_selecting_from`, then
clamp the edited bound to the other bound so the dates stay in order. -/
def DateSelectionState.adjust_current_field (s : DateSelectionState)
    (increment : Bool) : DateSelectionState :=
  let s1 := if s.is_selecting_from then
      { s with from_date := adjustDateField s.current_field increment s.from_date }
    else
      { s with to_date := adjustDateField s.current_field increment s.to_date }
  if s1.is_selecting_from && CalDateTime.ltb s1.to_date s1.from_date then
    { s1 with from_date := s1.to_date }
  else if !s1.is_selecting_from && CalDateTime.ltb s1.to_date s1.from_date then
    { s1 with to_date := s1.from_date }
  else s1

/-- One step of a user editing session: set the field and bound being
edited, then adjust by one increment or decrement. -/
def DateSelectionState.applyAdjustment (s : DateSelectionState)
    (op : DateField × Bool × Bool) : DateSelectionState :=
  DateSelectionState.adjust_current_field
    { s with current_field := op.1, is_selecting_from := op.2.1 } op.2.2

/-- A whole editing session: a sequence of field adjustments, applied in
order. -/
def DateSelectionState.applyAdjustments (s : DateSelectionState) :
    List (DateField × Bool × Bool) → DateSelectionState
  | [] => s
  | op :: ops => (s.applyAdjustment op).applyAdjustments ops

/-! ## CachedListSource: pagination, sorting, cache and the shared list
(src/app_state/function_selection.rs) -/

/-- One page of a paginated remote listing response: the items of the page
and the optional continuation token (`next_marker`). -/
structure FetchPage where
  items : List Str
  nextMarker : Option Str
deriving DecidableEq, Repr

/-- Embedding of the pagination loop shared by `load_functions_from_aws`
(function_selection.rs lines 83-101) and `update_functions_in_background`
(lines 171-189): the remote source is the sequence of pages it will serve;
each iteration appends the items of the next page and the loop continues
exactly while the response carries a continuation token. -/
def fetchAllPages : List FetchPage → List Str
  | [] => []
  | p :: rest =>
    p.items ++ (if p.nextMarker.isSome then fetchAllPages rest else [])

/-- Lexicographic order on embedded strings (the derived `Ord` of Rust
`String` used by `Vec::sort`). -/
def strLe : Str → Str → Bool
  | [], _ => true
  | _ :: _, [] => false
  | a :: as_, b :: bs => if a < b then true else if b < a then false else strLe as_ bs

/-- Stable insertion into a sorted list, the auxiliary step of the sort. -/
def insertStr (x : Str) : List Str → List Str
  | [] => [x]
  | y :: ys => if strLe x y then x :: y :: ys else y :: insertStr x ys

/-- Embedding of `Vec::sort` on strings (a stable lexicographic sort). -/
def sortStrs (l : List Str) : List Str := l.foldr insertStr []

/-- Embedding of `Vec::clear` on the shared list. -/
def listClear (_l : List Str) : List Str := []

/-- Embedding of `Vec::extend` on the shared list. -/
def listExtend (l xs : List Str) : List Str := l ++ xs

/-- Modelled from the spec: `load_cached_functions`
(crate::utils::file_utils, whose source file is not present under src/) —
the cache-store read of spec section 6, `read(kind, context) ->
Option<List<string>>`. The cache entry for the active profile key is the
optional list it holds. -/
def load_cached_functions (cache : Option (List Str)) : Option (List Str) :=
  cache

/-- Modelled from the spec: `cache_functions` (crate::utils::file_utils,
whose source file is not present under src/) — the cache-store write of
spec section 6, overwriting the entry for the active profile key. -/
def cache_functions (_cache : Option (List Str)) (functions : List Str) :
    Option (List Str) :=
  some functions

/-- Embedding of the cache-hit path of `FunctionSelection::load_functions`
(function_selection.rs lines 33-66): when the cache read returns a list,
the shared list is cleared and extended with the cached data, the filtered
list becomes a copy of the shared list, index 0 is selected, and a
background refresh is spawned; the function then returns immediately. A
cache miss (`none`) falls through to the synchronous remote fetch. -/
def load_functions_immediate (cache : Option (List Str))
    (s : FunctionSelectionState) : Option FunctionSelectionState :=
  match load_cached_functions cache with
  | some cached =>
    let shared := listExtend (listClear s.lambdaFunctions) cached
    some { s with
           lambdaFunctions := shared
           filteredFunctions := shared
           listState := some 0 }
  | none => none

/-- Embedding of `update_functions_in_background` (function_selection.rs
lines 156-201): drive the pagination loop to exhaustion, sort the
concatenated names, rewrite the cache, then replace the shared list by
clearing and extending it under the single lock acquisition of lines
196-199. Returns the new cache entry and the new shared list. -/
def update_functions_in_background (pages : List FetchPage)
    (cache : Option (List Str)) (shared : List Str) :
    Option (List Str) × List Str :=
  let functions := sortStrs (fetchAllPages pages)
  (cache_functions cache functions, listExtend (listClear shared) functions)

/-! ### Lock-acquisition traces of the shared-list writers

Each element of a trace is the transformation of the shared list performed
under one acquisition of its mutex; a concurrent reader can run between any
two elements, observing the intermediate list. -/

/-- Trace of the shared-list replacement in `update_functions_in_background`
(function_selection.rs lines 196-199): one `lock()` guard is held across
both the clear and the extend, so the whole replacement is a single trace
element. -/
def backgroundReplaceTrace (functions : List Str) :
    List (List Str → List Str) :=
  [fun l => listExtend (listClear l) functions]

/-- Trace of the cached-data install in `FunctionSelection::load_functions`
(function_selection.rs lines 39-43): `.lock().unwrap().clear()` and
`.lock().unwrap().extend(cached)` are separate statements, each taking and
dropping its own temporary guard, so the clear and the extend are two trace
elements. -/
def loadCachedInstallTrace (cached : List Str) :
    List (List Str → List Str) :=
  [fun l => listClear l, fun l => listExtend l cached]

/-- The list states a concurrent reader can observe around a trace: the
initial list, and the list after each lock acquisition completes. -/
def observableStates (init : List Str) :
    List (List Str → List Str) → List (List Str)
  | [] => [init]
  | f :: fs => init :: observableStates (f init) fs

/-! ## Theorems -/

theorem filter_true_eq_self {α : Type} (l : List α) :
    l.filter (fun _ => true) = l := by
  induction l with
  | nil => rfl
  | cons a as ih => simp [List.filter, ih]

/-- C7: for every backing list and every filter query, after update_filter
the filtered view contains exactly those candidates for which every
whitespace-separated token of the lower-cased query is a substring of the
lower-cased candidate text, in backing-list order; an empty query retains
every candidate. For the log viewer the candidate text is the message; the
hypothesis that every message is present holds for all lists the program
stores, since load_logs normalises every event with
normalizeEvent (see normalizeEvent_message_isSome). -/
theorem C7_filter_characterization :
    (∀ (functions : List Str) (query : Str),
        updateFilterFS functions query =
          functions.filter (fun name => keywordFilterMatches query name)) ∧
    (∀ (functions : List Str), updateFilterFS functions [] = functions) ∧
    (∀ (logs : List OutputLogEvent) (query : Str),
        (∀ e ∈ logs, e.message.isSome) →
        updateFilterLV logs query =
          logs.filter (fun e => keywordFilterMatches query (e.message.getD []))) := by
  refine ⟨?_, ?_, ?_⟩
  · intro functions query
    by_cases hq : query = []
    · subst hq
      simp [updateFilterFS, keywordFilterMatches, lowerStr, splitWs,
        filter_true_eq_self]
    · simp [updateFilterFS, keywordFilterMatches, hq]
  · intro functions
    simp [updateFilterFS]
  · intro logs query hall
    by_cases hq : query = []
    · subst hq
      have h1 : updateFilterLV logs [] = logs := by simp [updateFilterLV]
      have h2 : (fun (e : OutputLogEvent) =>
          keywordFilterMatches [] (e.message.getD [])) = fun _ => true := by
        funext e
        rfl
      rw [h1, h2, filter_true_eq_self]
    · simp only [updateFilterLV, if_neg hq]
      apply List.filter_congr
      intro e he
      have hsome := hall e he
      obtain ⟨m, hm⟩ := Option.isSome_iff_exists.mp hsome
      simp [hm, keywordFilterMatches]

/-- Witness for C7 at a concrete input: one log with message "a" and the
query "a". -/
theorem C7_filter_characterization_witness :
    (∀ e ∈ [OutputLogEvent.mk 0 (some ['a']) 0], e.message.isSome) ∧
      updateFilterLV [OutputLogEvent.mk 0 (some ['a']) 0] ['a'] =
        [OutputLogEvent.mk 0 (some ['a']) 0].filter
          (fun e => keywordFilterMatches ['a'] (e.message.getD [])) :=
  ⟨by decide,
   C7_filter_characterization.2.2 [OutputLogEvent.mk 0 (some ['a']) 0] ['a']
     (by decide)⟩

/-- C10: a non-empty filter string consisting only of whitespace tokenizes
to zero keywords, so update_filter retains every candidate, exactly as for
the empty query. For the log viewer the hypothesis that every message is
present holds for all lists the program stores (load_logs normalises every
event, see normalizeEvent_message_isSome). -/
theorem C10_whitespace_filter_retains_all :
    (∀ (functions : List Str) (query : Str),
        query ≠ [] → (∀ c ∈ query, c.isWhitespace) →
        updateFilterFS functions query = functions) ∧
    (∀ (logs : List OutputLogEvent) (query : Str),
        query ≠ [] → (∀ c ∈ query, c.isWhitespace) →
        (∀ e ∈ logs, e.message.isSome) →
        updateFilterLV logs query = logs) := by
  have hsplit : ∀ (query : Str), (∀ c ∈ query, c.isWhitespace) →
      splitWs (lowerStr query) = [] := fun query hws =>
    splitWs_all_whitespace _ (lowerStr_all_whitespace query hws)
  constructor
  · intro functions query hne hws
    simp only [updateFilterFS, if_neg hne, hsplit query hws, List.all_nil,
      filter_true_eq_self]
  · intro logs query hne hws hall
    simp only [updateFilterLV, if_neg hne, hsplit query hws]
    calc logs.filter _ = logs.filter (fun _ => true) :=
          List.filter_congr (by
            intro e he
            obtain ⟨m, hm⟩ := Option.isSome_iff_exists.mp (hall e he)
            simp [hm])
      _ = logs := filter_true_eq_self logs

/-- Witness for C10 at a concrete input: the single-space filter over a
one-name function list and over a one-event log list. -/
theorem C10_whitespace_filter_retains_all_witness :
    ([' '] ≠ ([] : Str)) ∧ (∀ c ∈ ([' '] : Str), c.isWhitespace) ∧
      updateFilterFS [['a']] [' '] = [['a']] ∧
      updateFilterLV [OutputLogEvent.mk 0 (some ['a']) 0] [' '] =
        [OutputLogEvent.mk 0 (some ['a']) 0] :=
  ⟨by decide, by decide,
   C10_whitespace_filter_retains_all.1 [['a']] [' '] (by decide) (by decide),
   C10_whitespace_filter_retains_all.2 [OutputLogEvent.mk 0 (some ['a']) 0]
     [' '] (by decide) (by decide) (by decide)⟩

/-- C3 as stated is false: counterexample. With backing list ["a"] and
filter "z" the filtered view of FunctionSelection::update_filter is empty,
yet the selection is Some 0 (and selected_index is 0), not None. -/
theorem C3_counterexample :
    ((FunctionSelectionState.mk ⟨[], []⟩ [['a']] [['a']] 0 ['z']
        (some 0)).update_filter).filteredFunctions = [] ∧
      ((FunctionSelectionState.mk ⟨[], []⟩ [['a']] [['a']] 0 ['z']
        (some 0)).update_filter).listState ≠ none ∧
      ((FunctionSelectionState.mk ⟨[], []⟩ [['a']] [['a']] 0 ['z']
        (some 0)).update_filter).selectedIndex = 0 := by
  decide

/-- C3 amended: after LogViewer::update_filter the selection is Some 0 when
the resulting filtered view is non-empty and None when it is empty; after
FunctionSelection::update_filter the selection is unconditionally reset to
index 0 (list_state Some 0), even when the filtered view is empty. -/
theorem C3_amended_selection_reset :
    (∀ s : LogViewerState,
        (s.update_filter).selectedLog =
          if (s.update_filter).filteredLogs.isEmpty then none else some 0) ∧
    (∀ s : FunctionSelectionState,
        (s.update_filter).selectedIndex = 0 ∧
          (s.update_filter).listState = some 0) := by
  constructor
  · intro s
    simp [LogViewerState.update_filter]
  · intro s
    exact ⟨rfl, rfl⟩

/-- C8: with a non-empty filtered list and the selected index in range,
next moves to min(selected+1, len-1) and previous to selected-1 (Nat
saturating subtraction embeds max(selected-1, 0)), so the index stays in
[0, len-1]; on an empty list both are no-ops. Stated for
FunctionSelection and for ProfileSelection (whose cursor is the optional
list_state index). -/
theorem C8_cursor_clamped :
    (∀ s : FunctionSelectionState,
        (s.filteredFunctions = [] → s.next = s ∧ s.previous = s) ∧
        (s.selectedIndex < s.filteredFunctions.length →
          s.next.selectedIndex =
              min (s.selectedIndex + 1) (s.filteredFunctions.length - 1) ∧
            s.next.selectedIndex < s.filteredFunctions.length ∧
            s.previous.selectedIndex = s.selectedIndex - 1 ∧
            s.previous.selectedIndex < s.filteredFunctions.length)) ∧
    (∀ (p : ProfileSelectionState) (i : Nat),
        (p.profiles = [] → p.next = p ∧ p.previous = p) ∧
        (p.listState = some i → i < p.profiles.length →
          p.next.listState = some (min (i + 1) (p.profiles.length - 1)) ∧
            min (i + 1) (p.profiles.length - 1) < p.profiles.length ∧
            p.previous.listState = some (i - 1) ∧
            i - 1 < p.profiles.length)) := by
  constructor
  · intro s
    constructor
    · intro hemp
      have h : s.filteredFunctions.isEmpty = true := by simp [hemp]
      constructor <;> simp [FunctionSelectionState.next,
        FunctionSelectionState.previous, h]
    · intro hlt
      have h : s.filteredFunctions.isEmpty = false := by
        cases hf : s.filteredFunctions with
        | nil => rw [hf] at hlt; simp at hlt
        | cons a as => simp
      refine ⟨?_, ?_, ?_, ?_⟩ <;>
        simp [FunctionSelectionState.next, FunctionSelectionState.previous, h] <;>
        omega
  · intro p i
    constructor
    · intro hemp
      have h : p.profiles.isEmpty = true := by simp [hemp]
      constructor <;> simp [ProfileSelectionState.next,
        ProfileSelectionState.previous, h]
    · intro hsel hlt
      have h : p.profiles.isEmpty = false := by
        cases hf : p.profiles with
        | nil => rw [hf] at hlt; simp at hlt
        | cons a as => simp
      have hn : p.next.listState = some (min (i + 1) (p.profiles.length - 1)) := by
        simp [ProfileSelectionState.next, h, hsel]
      have hp : p.previous.listState = some (i - 1) := by
        simp [ProfileSelectionState.previous, h, hsel]
      exact ⟨hn, by omega, hp, by omega⟩

/-- Witness for C8 at concrete inputs: the empty-list no-op and the
in-range movement on a two-element list. -/
theorem C8_cursor_clamped_witness :
    ((FunctionSelectionState.mk ⟨[], []⟩ [] [] 0 [] none).filteredFunctions
        = [] ∧
      (FunctionSelectionState.mk ⟨[], []⟩ [] [] 0 [] none).next =
        FunctionSelectionState.mk ⟨[], []⟩ [] [] 0 [] none) ∧
    ((0 : Nat) < (ProfileSelectionState.mk (some 0)
        [⟨[], []⟩, ⟨[], []⟩]).profiles.length ∧
      (ProfileSelectionState.mk (some 0) [⟨[], []⟩, ⟨[], []⟩]).next.listState
        = some 1) := by
  constructor
  · exact ⟨rfl, ((C8_cursor_clamped.1
      (FunctionSelectionState.mk ⟨[], []⟩ [] [] 0 [] none)).1 rfl).1⟩
  · refine ⟨by decide, ?_⟩
    have h := ((C8_cursor_clamped.2
      (ProfileSelectionState.mk (some 0) [⟨[], []⟩, ⟨[], []⟩]) 0).2 rfl
      (by decide)).1
    simpa using h

/-- C1 as stated is false at visible_height = 0: counterexample. With one
filtered log and selection 0, get_visible_range 0 returns (0, 0), an empty
range, so selected < end fails (the claim includes visible_height == 0). -/
theorem C1_counterexample :
    ¬(((LogViewerState.mk [] [OutputLogEvent.mk 0 (some []) 0] [] 0 (some 0)
          false).get_visible_range 0).1 ≤ 0 ∧
      0 < ((LogViewerState.mk [] [OutputLogEvent.mk 0 (some []) 0] [] 0
          (some 0) false).get_visible_range 0).2 ∧
      ((LogViewerState.mk [] [OutputLogEvent.mk 0 (some []) 0] [] 0 (some 0)
          false).get_visible_range 0).2 -
        ((LogViewerState.mk [] [OutputLogEvent.mk 0 (some []) 0] [] 0 (some 0)
          false).get_visible_range 0).1 ≤ 0) := by
  decide

/-- C1 amended: for every state with a non-empty filtered list and a
selection Some selected with selected < total, and every visible_height of
at least 1, get_visible_range returns (start, end) with
start <= selected < end and end - start <= visible_height; at
visible_height == 0 the returned range is empty, so the selected index
cannot fall inside it. -/
theorem C1_amended_viewport_invariant (s : LogViewerState)
    (sel visibleHeight : Nat) (hsel : s.selectedLog = some sel)
    (hlt : sel < s.filteredLogs.length) (hvh : 1 ≤ visibleHeight) :
    (s.get_visible_range visibleHeight).1 ≤ sel ∧
      sel < (s.get_visible_range visibleHeight).2 ∧
      (s.get_visible_range visibleHeight).2 -
        (s.get_visible_range visibleHeight).1 ≤ visibleHeight := by
  unfold LogViewerState.get_visible_range
  rw [hsel]
  simp only [ge_iff_le, Nat.min_def]
  split <;> split <;> constructor <;> try constructor
  all_goals omega

/-- Witness for C1 amended: two filtered logs, selection 1, height 1. -/
theorem C1_amended_viewport_invariant_witness :
    ((LogViewerState.mk [] [OutputLogEvent.mk 0 (some []) 0,
        OutputLogEvent.mk 1 (some []) 1] [] 0 (some 1)
        false).selectedLog = some 1) ∧
    ((1 : Nat) < (LogViewerState.mk [] [OutputLogEvent.mk 0 (some []) 0,
        OutputLogEvent.mk 1 (some []) 1] [] 0 (some 1)
        false).filteredLogs.length) ∧
    (((LogViewerState.mk [] [OutputLogEvent.mk 0 (some []) 0,
        OutputLogEvent.mk 1 (some []) 1] [] 0 (some 1)
        false).get_visible_range 1).1 ≤ 1 ∧
      1 < ((LogViewerState.mk [] [OutputLogEvent.mk 0 (some []) 0,
        OutputLogEvent.mk 1 (some []) 1] [] 0 (some 1)
        false).get_visible_range 1).2 ∧
      ((LogViewerState.mk [] [OutputLogEvent.mk 0 (some []) 0,
        OutputLogEvent.mk 1 (some []) 1] [] 0 (some 1)
        false).get_visible_range 1).2 -
        ((LogViewerState.mk [] [OutputLogEvent.mk 0 (some []) 0,
        OutputLogEvent.mk 1 (some []) 1] [] 0 (some 1)
        false).get_visible_range 1).1 ≤ 1) :=
  ⟨rfl, by decide,
   C1_amended_viewport_invariant
     (LogViewerState.mk [] [OutputLogEvent.mk 0 (some []) 0,
       OutputLogEvent.mk 1 (some []) 1] [] 0 (some 1) false)
     1 1 rfl (by decide) (by decide)⟩

/-- One adjust_current_field call leaves the dates in order, whatever the
field update did: the final clamp replaces the edited bound by the other
bound whenever it overtook it. -/
theorem adjust_preserves_order (s : DateSelectionState) (inc : Bool) :
    CalDateTime.leb (s.adjust_current_field inc).from_date
      (s.adjust_current_field inc).to_date = true := by
  have hirr := CalDateTime.ltb_irrefl
  unfold DateSelectionState.adjust_current_field
  cases hsel : s.is_selecting_from <;>
    by_cases hlt : CalDateTime.ltb s.to_date
        (adjustDateField s.current_field inc s.from_date) = true <;>
    by_cases hlt2 : CalDateTime.ltb
        (adjustDateField s.current_field inc s.to_date) s.from_date = true <;>
    simp [hsel, hlt, hlt2, CalDateTime.leb, hirr]

/-- C4: from any state with from_date <= to_date, every sequence of
adjust_current_field calls (any mix of edited fields and bounds) keeps
from_date <= to_date after each individual call; the invariant is enforced
by the clamp at the end of adjust_current_field, not by an error. Because
the statement quantifies over all instruction lists, it covers every prefix
of a session, hence the state after each individual call. -/
theorem C4_order_invariant (s : DateSelectionState)
    (ops : List (DateField × Bool × Bool))
    (h : CalDateTime.leb s.from_date s.to_date = true) :
    CalDateTime.leb (s.applyAdjustments ops).from_date
      (s.applyAdjustments ops).to_date = true := by
  induction ops generalizing s with
  | nil => exact h
  | cons op rest ih =>
    exact ih _ (adjust_preserves_order _ _)

/-- Witness for C4 at a concrete input: a one-day increment of the from
bound of the range Jan 1 2024 .. Jan 2 2024. -/
theorem C4_order_invariant_witness :
    (CalDateTime.leb (CalDateTime.mk 2024 1 1 0 0 0)
        (CalDateTime.mk 2024 1 2 0 0 0) = true) ∧
      CalDateTime.leb
        ((DateSelectionState.mk (CalDateTime.mk 2024 1 1 0 0 0)
            (CalDateTime.mk 2024 1 2 0 0 0) true DateField.Day QuickRange.all
            (some 0) true).applyAdjustments
          [(DateField.Day, true, true)]).from_date
        ((DateSelectionState.mk (CalDateTime.mk 2024 1 1 0 0 0)
            (CalDateTime.mk 2024 1 2 0 0 0) true DateField.Day QuickRange.all
            (some 0) true).applyAdjustments
          [(DateField.Day, true, true)]).to_date = true :=
  ⟨by decide,
   C4_order_invariant
     (DateSelectionState.mk (CalDateTime.mk 2024 1 1 0 0 0)
       (CalDateTime.mk 2024 1 2 0 0 0) true DateField.Day QuickRange.all
       (some 0) true)
     [(DateField.Day, true, true)] (by decide)⟩

/-- Incrementing the month field of a valid December date wraps to January
of the same year: (12 + 1) mod 12 = 1, and with_month(1) succeeds because
January has 31 days. -/
theorem adjustMonth_inc_of_month12 (d : CalDateTime) (hv : d.Valid)
    (hm : d.month = 12) :
    adjustDateField DateField.Month true d = { d with month := 1 } := by
  obtain ⟨h1, h2, h3, h4, h5, h6, h7⟩ := hv
  have hday : d.day ≤ 31 := by
    rw [hm] at h4
    simpa [daysInMonth] using h4
  have hcast : ((d.month : Int) + 1).emod 12 = 1 := by
    rw [hm]
    decide
  simp [adjustDateField, hcast, withMonth, daysInMonth, hday]

/-- Decrementing the month field of a valid January date wraps to December
of the same year: (1 - 1) mod 12 = 0, mapped to month 12, and
with_month(12) succeeds because December has 31 days. -/
theorem adjustMonth_dec_of_month1 (d : CalDateTime) (hv : d.Valid)
    (hm : d.month = 1) :
    adjustDateField DateField.Month false d = { d with month := 12 } := by
  obtain ⟨h1, h2, h3, h4, h5, h6, h7⟩ := hv
  have hday : d.day ≤ 31 := by
    rw [hm] at h4
    simpa [daysInMonth] using h4
  have hcast : ((d.month : Int) + -1).emod 12 = 0 := by
    rw [hm]
    decide
  simp [adjustDateField, hcast, withMonth, daysInMonth, hday]

/-- C6 as stated is false: counterexample. Editing the to bound of the
range Jun 15 2024 .. Dec 15 2024, a month increment wraps the to bound to
Jan 15 2024, which falls before the from bound, so the ordering clamp
overwrites it with the from bound: the final month is 6, not 1. -/
theorem C6_counterexample :
    ((DateSelectionState.mk (CalDateTime.mk 2024 6 15 0 0 0)
        (CalDateTime.mk 2024 12 15 0 0 0) false DateField.Month
        QuickRange.all (some 0) true).to_date.month = 12) ∧
      (((DateSelectionState.mk (CalDateTime.mk 2024 6 15 0 0 0)
        (CalDateTime.mk 2024 12 15 0 0 0) false DateField.Month
        QuickRange.all (some 0) true).adjust_current_field
          true).to_date.month ≠ 1) := by
  decide

/-- C6 amended: the month-field update itself wraps 12 to 1 on increment
and 1 to 12 on decrement with modulo-12 arithmetic (0 mapped to 12), with
year, day and all other fields unchanged; the full adjust_current_field
additionally applies the from <= to clamp, which can replace the edited
bound entirely with the other bound. The wrapped outcome survives to the
final state whenever the clamp cannot fire: always when incrementing the
from bound from month 12 and when decrementing the to bound from month 1,
given from_date <= to_date beforehand. -/
theorem C6_amended_month_wraparound :
    (∀ d : CalDateTime, d.Valid → d.month = 12 →
        adjustDateField DateField.Month true d = { d with month := 1 }) ∧
    (∀ d : CalDateTime, d.Valid → d.month = 1 →
        adjustDateField DateField.Month false d = { d with month := 12 }) ∧
    (∀ s : DateSelectionState, s.from_date.Valid →
        s.is_selecting_from = true → s.current_field = DateField.Month →
        s.from_date.month = 12 →
        CalDateTime.leb s.from_date s.to_date = true →
        (s.adjust_current_field true).from_date =
          { s.from_date with month := 1 }) ∧
    (∀ s : DateSelectionState, s.to_date.Valid →
        s.is_selecting_from = false → s.current_field = DateField.Month →
        s.to_date.month = 1 →
        CalDateTime.leb s.from_date s.to_date = true →
        (s.adjust_current_field false).to_date =
          { s.to_date with month := 12 }) := by
  refine ⟨adjustMonth_inc_of_month12, adjustMonth_dec_of_month1, ?_, ?_⟩
  · intro s hv hsel hf hm hord
    have hstep := adjustMonth_inc_of_month12 s.from_date hv hm
    have h1 : CalDateTime.ltb s.to_date s.from_date = false := by
      simpa [CalDateTime.leb] using hord
    have hnc : CalDateTime.ltb s.to_date { s.from_date with month := 1 }
        = false := by
      simp only [CalDateTime.ltb, decide_eq_false_iff_not] at h1 ⊢
      rw [hm] at h1
      omega
    unfold DateSelectionState.adjust_current_field
    simp [hsel, hf, hstep, hnc]
  · intro s hv hsel hf hm hord
    have hstep := adjustMonth_dec_of_month1 s.to_date hv hm
    have h1 : CalDateTime.ltb s.to_date s.from_date = false := by
      simpa [CalDateTime.leb] using hord
    have hnc : CalDateTime.ltb { s.to_date with month := 12 } s.from_date
        = false := by
      simp only [CalDateTime.ltb, decide_eq_false_iff_not] at h1 ⊢
      rw [hm] at h1
      omega
    unfold DateSelectionState.adjust_current_field
    simp [hsel, hf, hstep, hnc]

/-- Witness for C6 amended: the wrap at Dec 15 2024 (increment) and the
no-clamp case decrementing the to bound of Jan 15 2024 .. Jan 20 2024. -/
theorem C6_amended_month_wraparound_witness :
    ((CalDateTime.mk 2024 12 15 0 0 0).Valid ∧
      adjustDateField DateField.Month true (CalDateTime.mk 2024 12 15 0 0 0)
        = { CalDateTime.mk 2024 12 15 0 0 0 with month := 1 }) ∧
    (CalDateTime.leb (CalDateTime.mk 2024 1 15 0 0 0)
        (CalDateTime.mk 2024 1 20 0 0 0) = true ∧
      ((DateSelectionState.mk (CalDateTime.mk 2024 1 15 0 0 0)
          (CalDateTime.mk 2024 1 20 0 0 0) false DateField.Month
          QuickRange.all (some 0) true).adjust_current_field
            false).to_date =
        { CalDateTime.mk 2024 1 20 0 0 0 with month := 12 }) :=
  ⟨⟨by decide,
    C6_amended_month_wraparound.1 (CalDateTime.mk 2024 12 15 0 0 0)
      (by decide) (by decide)⟩,
   ⟨by decide,
    C6_amended_month_wraparound.2.2.2
      (DateSelectionState.mk (CalDateTime.mk 2024 1 15 0 0 0)
        (CalDateTime.mk 2024 1 20 0 0 0) false DateField.Month
        QuickRange.all (some 0) true)
      (by decide) (by decide) (by decide) (by decide) (by decide)⟩⟩

/-- C2 as stated is false: counterexample. In custom mode with the quick
range at index 1 (Last2Hours) selected, toggle_custom resets the selection
to index 0 and applies the Last Hour preset: from_date becomes now minus 1
hour, not now minus the 2-hour duration of the preset at index 1. -/
theorem C2_counterexample :
    (((DateSelectionState.mk (CalDateTime.mk 2024 1 9 0 0 0)
        (CalDateTime.mk 2024 1 9 12 0 0) true DateField.Day QuickRange.all
        (some 1) true).toggle_custom
          (CalDateTime.mk 2024 1 10 12 0 0)).selected_quick_range
        = some 0) ∧
      (((DateSelectionState.mk (CalDateTime.mk 2024 1 9 0 0 0)
        (CalDateTime.mk 2024 1 9 12 0 0) true DateField.Day QuickRange.all
        (some 1) true).toggle_custom
          (CalDateTime.mk 2024 1 10 12 0 0)).from_date ≠
        subHours (CalDateTime.mk 2024 1 10 12 0 0) 2) := by
  decide

/-- C2 amended: from custom mode, toggle_custom switches to quick mode,
resets the selected quick range to index 0, and recomputes the range from
the preset at index 0 (Last Hour, since quick_ranges is always
QuickRange.all) relative to the clock at the moment of the call:
to_date = now and from_date = now minus 1 hour. The preset selected before
the toggle is discarded, as are the custom edits. -/
theorem C2_amended_toggle_custom (s : DateSelectionState)
    (now : CalDateTime) (hc : s.custom_selection = true)
    (hq : s.quick_ranges = QuickRange.all) :
    (s.toggle_custom now).custom_selection = false ∧
      (s.toggle_custom now).selected_quick_range = some 0 ∧
      (s.toggle_custom now).to_date = now ∧
      (s.toggle_custom now).from_date = subHours now 1 := by
  simp [DateSelectionState.toggle_custom, DateSelectionState.apply_quick_range,
    hc, hq, QuickRange.all, QuickRange.durationHours]

/-- Witness for C2 amended at a concrete input: custom mode with preset
index 1 selected, toggled at noon Jan 10 2024. -/
theorem C2_amended_toggle_custom_witness :
    ((DateSelectionState.mk (CalDateTime.mk 2024 1 9 0 0 0)
        (CalDateTime.mk 2024 1 9 12 0 0) true DateField.Day QuickRange.all
        (some 1) true).custom_selection = true) ∧
      (((DateSelectionState.mk (CalDateTime.mk 2024 1 9 0 0 0)
          (CalDateTime.mk 2024 1 9 12 0 0) true DateField.Day QuickRange.all
          (some 1) true).toggle_custom
            (CalDateTime.mk 2024 1 10 12 0 0)).custom_selection = false ∧
        ((DateSelectionState.mk (CalDateTime.mk 2024 1 9 0 0 0)
          (CalDateTime.mk 2024 1 9 12 0 0) true DateField.Day QuickRange.all
          (some 1) true).toggle_custom
            (CalDateTime.mk 2024 1 10 12 0 0)).selected_quick_range = some 0 ∧
        ((DateSelectionState.mk (CalDateTime.mk 2024 1 9 0 0 0)
          (CalDateTime.mk 2024 1 9 12 0 0) true DateField.Day QuickRange.all
          (some 1) true).toggle_custom
            (CalDateTime.mk 2024 1 10 12 0 0)).to_date =
          CalDateTime.mk 2024 1 10 12 0 0 ∧
        ((DateSelectionState.mk (CalDateTime.mk 2024 1 9 0 0 0)
          (CalDateTime.mk 2024 1 9 12 0 0) true DateField.Day QuickRange.all
          (some 1) true).toggle_custom
            (CalDateTime.mk 2024 1 10 12 0 0)).from_date =
          subHours (CalDateTime.mk 2024 1 10 12 0 0) 1) :=
  ⟨rfl,
   C2_amended_toggle_custom
     (DateSelectionState.mk (CalDateTime.mk 2024 1 9 0 0 0)
       (CalDateTime.mk 2024 1 9 12 0 0) true DateField.Day QuickRange.all
       (some 1) true)
     (CalDateTime.mk 2024 1 10 12 0 0) rfl rfl⟩

/-- C5: the cached-load scenario. With cache ["a","b"] and a remote source
serving the pages ["b"] (with a continuation token) then ["c","d"] (no
token), load_functions installs ["a","b"] immediately from the cache, and
the completed background refresh leaves the shared list equal to the sorted
concatenation of all pages ["b","c","d"], with the cache rewritten to that
same sorted list. The pagination loop consumes another page exactly when
the response carries a continuation token, and stops only when none is
returned. -/
theorem C5_cached_load_scenario :
    ((load_functions_immediate (some [['a'], ['b']])
        (FunctionSelectionState.mk ⟨[], []⟩ [] [] 0 [] none)).map
          (fun s => s.lambdaFunctions) = some [['a'], ['b']] ∧
      (load_functions_immediate (some [['a'], ['b']])
        (FunctionSelectionState.mk ⟨[], []⟩ [] [] 0 [] none)).map
          (fun s => s.filteredFunctions) = some [['a'], ['b']] ∧
      update_functions_in_background
          [FetchPage.mk [['b']] (some ['t']), FetchPage.mk [['c'], ['d']] none]
          (some [['a'], ['b']]) [['a'], ['b']] =
        (some [['b'], ['c'], ['d']], [['b'], ['c'], ['d']]) ∧
      sortStrs (fetchAllPages
          [FetchPage.mk [['b']] (some ['t']), FetchPage.mk [['c'], ['d']] none])
        = [['b'], ['c'], ['d']]) ∧
    (∀ (p : FetchPage) (rest : List FetchPage) (m : Str),
        p.nextMarker = some m →
        fetchAllPages (p :: rest) = p.items ++ fetchAllPages rest) ∧
    (∀ (p : FetchPage) (rest : List FetchPage),
        p.nextMarker = none → fetchAllPages (p :: rest) = p.items) := by
  refine ⟨by decide, ?_, ?_⟩
  · intro p rest m hm
    simp [fetchAllPages, hm]
  · intro p rest hm
    simp [fetchAllPages, hm]

/-- Witness for C5 at concrete pages: the loop continues past a page with a
token and stops at a page without one. -/
theorem C5_cached_load_scenario_witness :
    ((FetchPage.mk [['b']] (some ['t'])).nextMarker = some ['t'] ∧
      fetchAllPages [FetchPage.mk [['b']] (some ['t']),
          FetchPage.mk [['c'], ['d']] none] =
        [['b']] ++ fetchAllPages [FetchPage.mk [['c'], ['d']] none]) ∧
    ((FetchPage.mk [['c'], ['d']] none).nextMarker = (none : Option Str) ∧
      fetchAllPages [FetchPage.mk [['c'], ['d']] none] = [['c'], ['d']]) :=
  ⟨⟨rfl,
    C5_cached_load_scenario.2.1 (FetchPage.mk [['b']] (some ['t']))
      [FetchPage.mk [['c'], ['d']] none] ['t'] rfl⟩,
   ⟨rfl,
    C5_cached_load_scenario.2.2 (FetchPage.mk [['c'], ['d']] none) [] rfl⟩⟩

/-- C9 as stated is false: counterexample. The cached-data install in
load_functions takes the lock twice (clear, then extend), so with prior
shared list ["x"] and cached data ["a","b"] a reader running between the
two acquisitions observes the empty list, which is neither the prior list
nor the new one; the claim that every replacement is a single-acquisition
clear-then-extend fails on this path. -/
theorem C9_counterexample :
    (loadCachedInstallTrace [['a'], ['b']]).length ≠ 1 ∧
      observableStates [['x']] (loadCachedInstallTrace [['a'], ['b']]) =
        [[['x']], [], [['a'], ['b']]] ∧
      ([] : List Str) ≠ [['x']] ∧ ([] : List Str) ≠ [['a'], ['b']] := by
  decide

/-- C9 amended: the background-refresh completion replaces the shared list
as a clear-then-extend under a single lock acquisition, so a concurrent
reader observes only the old list or the new list; the initial cached-data
install in load_functions, however, performs the clear and the extend under
two separate lock acquisitions, so a reader scheduled between them can
observe the intermediate empty list. -/
theorem C9_amended_replacement_atomicity (init functions cached : List Str) :
    (backgroundReplaceTrace functions).length = 1 ∧
      observableStates init (backgroundReplaceTrace functions) =
        [init, functions] ∧
      (loadCachedInstallTrace cached).length = 2 ∧
      observableStates init (loadCachedInstallTrace cached) =
        [init, [], cached] := by
  refine ⟨rfl, ?_, rfl, ?_⟩ <;>
    simp [observableStates, backgroundReplaceTrace, loadCachedInstallTrace,
      listClear, listExtend]
